import Mathlib

/-
  Shallow embedding of the WebOsFHE Solidity contract (WebOsFHE.sol).

  Modelling conventions:
  * `euint32` ciphertext handles are modelled as natural numbers (the underlying
    bytes32 handle); handle 0 is the uninitialized handle, matching
    `FHE.isInitialized` which tests the handle against zero.
  * `uint256` quantities (ids, counters, composite keys, request ids) are
    modelled as `Nat`.  Solidity 0.8 arithmetic is checked (it reverts on
    overflow rather than wrapping), and none of the arithmetic here can reach
    2^256 on any execution considered, so `Nat` is exact.
  * Solidity mappings are total functions `Nat → _` whose value at an
    unwritten key is the zero-initialized default record, exactly as in the EVM.
  * A reverting operation is `Except ContractError _`; `exec` wraps an
    operation with the ledger's revert semantics (an error leaves the state
    unchanged and emits no events).
  * External FHE-library calls: `FHE.checkSignatures` (which reverts when the
    proof does not verify) is modelled by a boolean parameter `sigOk` giving
    the verification outcome for the supplied (requestId, cleartexts, proof);
    `FHE.requestDecryption` returns an oracle-assigned request id, supplied as
    a parameter; `abi.decode` of the cleartext bytes is modelled by the
    `Cleartext` payload type together with the two decoders below (a byte
    string decodes as at most one of the two expected ABI types).
-/

namespace WebOsFHE

/-- Ciphertext handle (an `euint32` in the source): the underlying bytes32
handle as a natural number; 0 is the uninitialized handle. -/
abbrev Handle := Nat

/-- struct EncryptedProcess { uint256 id; euint32 encryptedCode;
euint32 encryptedMemory; euint32 encryptedState; uint256 timestamp; } -/
structure EncryptedProcess where
  id : Nat
  encryptedCode : Handle
  encryptedMemory : Handle
  encryptedState : Handle
  timestamp : Nat
  deriving DecidableEq

/-- struct ProcessResult { euint32 encryptedOutput; euint32 encryptedExecutionTime; } -/
structure ProcessResult where
  encryptedOutput : Handle
  encryptedExecutionTime : Handle
  deriving DecidableEq

/-- struct DecryptedProcess { string code; string memory; string state; bool isRevealed; } -/
structure DecryptedProcess where
  code : String
  memory : String
  state : String
  isRevealed : Bool
  deriving DecidableEq

/-- The events declared by the contract. -/
inductive Event where
  | ProcessCreated (id timestamp : Nat)
  | ExecutionRequested (processId : Nat)
  | ExecutionCompleted (processId : Nat)
  | DecryptionRequested (processId : Nat)
  | ProcessDecrypted (processId : Nat)
  deriving DecidableEq

/-- The revert reasons of the contract, one per `require`/`revert` string,
plus the two reverts that originate in external library calls
(`FHE.checkSignatures` failure and `abi.decode` / array-bounds failure). -/
inductive ContractError where
  | invalidRequest
  | alreadyDecrypted
  | processNotFound
  | noResultsAvailable
  | invalidResultType
  | proofInvalid
  | decodeError
  deriving DecidableEq

/-- The cleartext byte payload delivered by the oracle, viewed through the
ABI types the contract decodes it at: a byte string is a valid encoding of at
most one of `string[]` and `string`; `other` stands for undecodable bytes. -/
inductive Cleartext where
  | strs (l : List String)
  | str (v : String)
  | other (bytes : Nat)
  deriving DecidableEq

/-- abi.decode(cleartexts, (string[])), as used by decryptProcess; `none`
models the revert of a failed decode. -/
def decodeStringArray : Cleartext → Option (List String)
  | .strs l => some l
  | _ => none

/-- abi.decode(cleartexts, (string)), as used by decryptExecutionResult. -/
def decodeString : Cleartext → Option String
  | .str v => some v
  | _ => none

/-- FHE.isInitialized: an euint32 handle is initialized iff it is nonzero. -/
def isInitialized (h : Handle) : Bool := h != 0

/-- Pointwise update of a Solidity mapping. -/
def setNat {α : Type} (m : Nat → α) (k : Nat) (v : α) : Nat → α :=
  fun q => if q = k then v else m q

/-- The full storage of the contract. -/
structure ContractState where
  processCount : Nat
  encryptedProcesses : Nat → EncryptedProcess
  decryptedProcesses : Nat → DecryptedProcess
  processResults : Nat → ProcessResult
  requestToProcessId : Nat → Nat

/-- The state of a freshly deployed contract: every mapping holds the
zero-initialized default record. -/
def initState : ContractState where
  processCount := 0
  encryptedProcesses := fun _ => ⟨0, 0, 0, 0, 0⟩
  decryptedProcesses := fun _ => ⟨"", "", "", false⟩
  processResults := fun _ => ⟨0, 0⟩
  requestToProcessId := fun _ => 0

/-- function createEncryptedProcess(euint32, euint32, euint32): increments the
counter, stores the EncryptedProcess under the new id, initializes the empty
unrevealed DecryptedProcess, emits ProcessCreated.  It has no failure path.
`ts` models block.timestamp. -/
def createEncryptedProcess (encryptedCode encryptedMemory encryptedState ts : Nat)
    (s : ContractState) : ContractState × List Event :=
  let newId := s.processCount + 1
  ({ s with
      processCount := newId
      encryptedProcesses :=
        setNat s.encryptedProcesses newId
          ⟨newId, encryptedCode, encryptedMemory, encryptedState, ts⟩
      decryptedProcesses :=
        setNat s.decryptedProcesses newId ⟨"", "", "", false⟩ },
   [.ProcessCreated newId ts])

/-- function requestProcessDecryption(uint256): requires the process not yet
revealed ("Already decrypted"), calls FHE.requestDecryption on the three
stored handles (the oracle-assigned request id is the parameter `reqId`) and
records requestId -> processId.  Note: no existence check on `processId`. -/
def requestProcessDecryption (processId reqId : Nat) (s : ContractState) :
    Except ContractError (ContractState × List Event) :=
  if (s.decryptedProcesses processId).isRevealed then
    .error .alreadyDecrypted
  else
    .ok ({ s with requestToProcessId := setNat s.requestToProcessId reqId processId },
         [.DecryptionRequested processId])

/-- function decryptProcess(uint256 requestId, bytes cleartexts, bytes proof):
looks up the registered process id (requires it nonzero, "Invalid request"),
requires the process not yet revealed ("Already decrypted"), verifies the
proof via FHE.checkSignatures (modelled by `sigOk`), decodes the cleartexts as
string[] and reads entries 0, 1, 2, then writes all three plaintext fields and
sets isRevealed, emitting ProcessDecrypted. -/
def decryptProcess (requestId : Nat) (cleartexts : Cleartext) (sigOk : Bool)
    (s : ContractState) : Except ContractError (ContractState × List Event) :=
  let processId := s.requestToProcessId requestId
  if processId = 0 then
    .error .invalidRequest
  else if (s.decryptedProcesses processId).isRevealed then
    .error .alreadyDecrypted
  else if !sigOk then
    .error .proofInvalid
  else
    match decodeStringArray cleartexts with
    | some (r0 :: r1 :: r2 :: _) =>
        .ok ({ s with decryptedProcesses :=
                setNat s.decryptedProcesses processId ⟨r0, r1, r2, true⟩ },
             [.ProcessDecrypted processId])
    | _ => .error .decodeError

/-- function requestProcessExecution(uint256): requires the process to exist
("Process not found") and emits ExecutionRequested; no storage write. -/
def requestProcessExecution (processId : Nat) (s : ContractState) :
    Except ContractError (ContractState × List Event) :=
  if (s.encryptedProcesses processId).id = 0 then
    .error .processNotFound
  else
    .ok (s, [.ExecutionRequested processId])

/-- function submitExecutionResult(uint256, euint32, euint32): unconditionally
overwrites the ProcessResult for the id and emits ExecutionCompleted. -/
def submitExecutionResult (processId encryptedOutput encryptedExecutionTime : Nat)
    (s : ContractState) : ContractState × List Event :=
  ({ s with processResults :=
      setNat s.processResults processId ⟨encryptedOutput, encryptedExecutionTime⟩ },
   [.ExecutionCompleted processId])

/-- The composite-key encoding used by requestResultDecryption:
requestToProcessId[reqId] = processId * 10 + resultType. -/
def encodeComposite (processId resultType : Nat) : Nat :=
  processId * 10 + resultType

/-- The composite-key decoding used by decryptExecutionResult:
(compositeId / 10, compositeId % 10).  The source casts the remainder to
uint8; since it is < 10, the cast is the identity. -/
def decodeComposite (compositeId : Nat) : Nat × Nat :=
  (compositeId / 10, compositeId % 10)

/-- function requestResultDecryption(uint256 processId, uint8 resultType):
requires an initialized output handle ("No results available"), selects the
handle for resultType 0 or 1 (reverting "Invalid result type" otherwise),
calls FHE.requestDecryption (oracle-assigned id `reqId`) and records the
composite key.  Note: the source emits no event here. -/
def requestResultDecryption (processId resultType reqId : Nat) (s : ContractState) :
    Except ContractError (ContractState × List Event) :=
  let result := s.processResults processId
  if !isInitialized result.encryptedOutput then
    .error .noResultsAvailable
  else if resultType = 0 then
    .ok ({ s with requestToProcessId :=
            setNat s.requestToProcessId reqId (encodeComposite processId resultType) },
         [])
  else if resultType = 1 then
    .ok ({ s with requestToProcessId :=
            setNat s.requestToProcessId reqId (encodeComposite processId resultType) },
         [])
  else
    .error .invalidResultType

/-- function decryptExecutionResult(uint256 requestId, bytes cleartexts,
bytes proof): reads the composite id (with NO unknown-request check), decodes
it into (processId, resultType) — both unused — verifies the proof, decodes
the cleartexts as a single string, and returns writing nothing and emitting
nothing. -/
def decryptExecutionResult (requestId : Nat) (cleartexts : Cleartext) (sigOk : Bool)
    (s : ContractState) : Except ContractError (ContractState × List Event) :=
  let compositeId := s.requestToProcessId requestId
  let _processId := (decodeComposite compositeId).1
  let _resultType := (decodeComposite compositeId).2
  if !sigOk then
    .error .proofInvalid
  else
    match decodeString cleartexts with
    | some _ => .ok (s, [])
    | none => .error .decodeError

/-- function getDecryptedProcess(uint256): pure read of the DecryptedProcess
record (default record for unknown ids). -/
def getDecryptedProcess (s : ContractState) (processId : Nat) :
    String × String × String × Bool :=
  let p := s.decryptedProcesses processId
  (p.code, p.memory, p.state, p.isRevealed)

/-- function hasExecutionResults(uint256): whether the stored output handle is
initialized. -/
def hasExecutionResults (s : ContractState) (processId : Nat) : Bool :=
  isInitialized (s.processResults processId).encryptedOutput

/-- One ledger transaction against the contract, with all oracle/environment
inputs (timestamps, oracle-assigned request ids, proof-verification outcomes,
cleartext payloads) made explicit. -/
inductive Op where
  | create (encryptedCode encryptedMemory encryptedState ts : Nat)
  | requestProcDecryption (processId reqId : Nat)
  | decProcess (requestId : Nat) (cleartexts : Cleartext) (sigOk : Bool)
  | requestProcExecution (processId : Nat)
  | submitResult (processId encryptedOutput encryptedExecutionTime : Nat)
  | requestResDecryption (processId resultType reqId : Nat)
  | decExecResult (requestId : Nat) (cleartexts : Cleartext) (sigOk : Bool)

/-- Ledger revert semantics: a reverted transaction leaves the state unchanged
and emits no events. -/
def orRevert (s : ContractState) :
    Except ContractError (ContractState × List Event) → ContractState × List Event
  | .ok r => r
  | .error _ => (s, [])

/-- Execute one transaction with revert semantics. -/
def exec (op : Op) (s : ContractState) : ContractState × List Event :=
  match op with
  | .create c m st ts => createEncryptedProcess c m st ts s
  | .requestProcDecryption pid rid => orRevert s (requestProcessDecryption pid rid s)
  | .decProcess rid clr sg => orRevert s (decryptProcess rid clr sg s)
  | .requestProcExecution pid => orRevert s (requestProcessExecution pid s)
  | .submitResult pid out time => submitExecutionResult pid out time s
  | .requestResDecryption pid rt rid => orRevert s (requestResultDecryption pid rt rid s)
  | .decExecResult rid clr sg => orRevert s (decryptExecutionResult rid clr sg s)

/-- Execute a sequence of transactions, accumulating the emitted events. -/
def execTrace : List Op → ContractState → ContractState × List Event
  | [], s => (s, [])
  | op :: rest, s =>
      let r := exec op s
      let r2 := execTrace rest r.1
      (r2.1, r.2 ++ r2.2)

/-- Creation arguments of one createEncryptedProcess call (the three ciphertext
handles and the block timestamp of that transaction). -/
structure CreateArgs where
  encryptedCode : Nat
  encryptedMemory : Nat
  encryptedState : Nat
  timestamp : Nat

/-- The transaction sequence consisting of one createEncryptedProcess call per
entry of `l`. -/
def createsOf (l : List CreateArgs) : List Op :=
  l.map fun a => .create a.encryptedCode a.encryptedMemory a.encryptedState a.timestamp

/-- The EncryptedProcess record that createEncryptedProcess stores for id `id`
from the arguments `a`. -/
def encRecordOf (id : Nat) (a : CreateArgs) : EncryptedProcess :=
  ⟨id, a.encryptedCode, a.encryptedMemory, a.encryptedState, a.timestamp⟩

/-- A concrete reachable prefix: create process 1, submit an execution result
for it, then register an execution-result decryption request for
(processId 1, resultType 0) under oracle request id 7 — the correlation table
then maps 7 to the composite id 10. -/
def trace0 : List Op :=
  [.create 11 12 13 100, .submitResult 1 5 6, .requestResDecryption 1 0 7]

/-- The state reached by `trace0` from the initial state. -/
def state0 : ContractState := (execTrace trace0 initState).1

/-- The cross-flow callback: decryptProcess invoked with the request id that
requestResultDecryption registered, with a verifying proof and cleartexts that
decode as three strings. -/
def crossOp : Op := .decProcess 7 (.strs ["a", "b", "c"]) true

/-- The state after the cross-flow callback. -/
def state1 : ContractState := (exec crossOp state0).1

/-- The state after nine further creations, the last of which allocates id 10
and re-initializes the DecryptedProcess record at id 10. -/
def state2 : ContractState :=
  (execTrace (List.replicate 9 (.create 0 0 0 0)) state1).1

/-- A reachable state in which process 1 has been created and revealed through
the intended flow: its decryption was requested under oracle request id 5 and
the callback resolved it. -/
def stateRevealed : ContractState :=
  (execTrace [.create 1 2 3 9, .requestProcDecryption 1 5,
    .decProcess 5 (.strs ["p", "q", "r"]) true] initState).1

/-- A reachable state in which process 1 has an execution result on file. -/
def stateHasResults : ContractState :=
  (execTrace [.create 1 1 1 1, .submitResult 1 5 6] initState).1

theorem setNat_same {α : Type} (m : Nat → α) (k : Nat) (v : α) : setNat m k v k = v := by
  simp [setNat]

theorem setNat_other {α : Type} (m : Nat → α) (k q : Nat) (v : α) (h : q ≠ k) :
    setNat m k v q = m q := by
  simp [setNat, h]

/-- Inversion of a successful decryptProcess call: all four guards passed and
the only storage write is the DecryptedProcess record at the index stored in
the correlation table for the request id. -/
theorem decryptProcess_ok_inv {rid : Nat} {clr : Cleartext} {sg : Bool}
    {s s' : ContractState} {evs : List Event}
    (h : decryptProcess rid clr sg s = .ok (s', evs)) :
    s.requestToProcessId rid ≠ 0 ∧
    (s.decryptedProcesses (s.requestToProcessId rid)).isRevealed = false ∧
    sg = true ∧
    ∃ r0 r1 r2 rest, decodeStringArray clr = some (r0 :: r1 :: r2 :: rest) ∧
      s' = { s with decryptedProcesses :=
              setNat s.decryptedProcesses (s.requestToProcessId rid) ⟨r0, r1, r2, true⟩ } ∧
      evs = [.ProcessDecrypted (s.requestToProcessId rid)] := by
  simp only [decryptProcess] at h
  split at h
  next hpid => simp at h
  next hpid =>
    split at h
    next hrev => simp at h
    next hrev =>
      split at h
      next hsig => simp at h
      next hsig =>
        split at h
        next r0 r1 r2 rest heq =>
          simp only [Except.ok.injEq, Prod.mk.injEq] at h
          refine ⟨hpid, by simpa using hrev, by simpa using hsig,
            r0, r1, r2, rest, heq, h.1.symm, h.2.symm⟩
        next => simp at h

/-- decryptExecutionResult writes nothing and emits nothing, whether it
succeeds or reverts. -/
theorem exec_decExecResult_noop (rid : Nat) (clr : Cleartext) (sg : Bool)
    (s : ContractState) : exec (.decExecResult rid clr sg) s = (s, []) := by
  simp only [exec, decryptExecutionResult]
  split
  · rfl
  · split
    · rfl
    · rfl

/-- C2: for every state and every invocation of a callback entry point
(decryptProcess or decryptExecutionResult) whose proof fails signature
verification, the transaction aborts (both entry points return an error, and
decryptExecutionResult reports exactly the proof failure), and under the
ledger's revert semantics the state is exactly as before the call and no
event is emitted. -/
theorem failed_proof_is_atomic_noop (rid : Nat) (clr : Cleartext) (s : ContractState) :
    (∃ e, decryptProcess rid clr false s = .error e) ∧
    exec (.decProcess rid clr false) s = (s, []) ∧
    decryptExecutionResult rid clr false s = .error .proofInvalid ∧
    exec (.decExecResult rid clr false) s = (s, []) := by
  have h3 : decryptExecutionResult rid clr false s = .error .proofInvalid := rfl
  have h1 : ∃ e, decryptProcess rid clr false s = .error e := by
    simp only [decryptProcess]
    split
    · exact ⟨_, rfl⟩
    · split
      · exact ⟨_, rfl⟩
      · exact ⟨_, rfl⟩
  obtain ⟨e, he⟩ := h1
  exact ⟨⟨e, he⟩, by simp [exec, he, orRevert], h3,
    exec_decExecResult_noop rid clr false s⟩

/-- C3: once a process's DecryptedProcess record has isRevealed = true, any
decryptProcess call whose request id resolves to that process fails with
"Already decrypted" (AlreadyResolved), and under revert semantics the code,
memory, state and isRevealed fields set by the first decryption are left
unchanged and no event is emitted. -/
theorem decryptProcess_already_revealed_fails
    (rid : Nat) (clr : Cleartext) (sg : Bool) (s : ContractState)
    (hreg : s.requestToProcessId rid ≠ 0)
    (hrev : (s.decryptedProcesses (s.requestToProcessId rid)).isRevealed = true) :
    decryptProcess rid clr sg s = .error .alreadyDecrypted ∧
    exec (.decProcess rid clr sg) s = (s, []) := by
  have h : decryptProcess rid clr sg s = .error .alreadyDecrypted := by
    simp [decryptProcess, hreg, hrev]
  exact ⟨h, by simp [exec, h, orRevert]⟩

/-- C3 witness: in the reachable state where process 1 was created, its
decryption requested under request id 5 and resolved, a second decryptProcess
call for request id 5 fails with "Already decrypted". -/
theorem decryptProcess_already_revealed_fails_witness :
    decryptProcess 5 (.strs ["x", "y", "z"]) true stateRevealed =
      .error .alreadyDecrypted :=
  (decryptProcess_already_revealed_fails 5 (.strs ["x", "y", "z"]) true stateRevealed
    (by decide) (by decide)).1

/-- C4 counterexample: request id 5 was never registered in the correlation
table of the initial state, yet decryptExecutionResult with a verifying proof
does not fail at all — it returns successfully (with no state change and no
events) instead of failing with UnknownRequest/NotFound as the claim states
for both callback entry points. -/
theorem unregistered_decryptExecutionResult_does_not_fail :
    initState.requestToProcessId 5 = 0 ∧
    decryptExecutionResult 5 (.str "7") true initState = .ok (initState, []) :=
  ⟨rfl, rfl⟩

/-- C4 (amended): for a request id never registered in the correlation table
(its stored value is the zero sentinel), decryptProcess fails with
"Invalid request" and changes nothing; decryptExecutionResult, by contrast,
has no unknown-request guard: it can only report a proof failure or a
cleartext-decode failure — never an unknown-request/not-found error — and in
every case it leaves the state unchanged and emits nothing. -/
theorem unknown_request_handling (rid : Nat) (clr : Cleartext) (sg : Bool)
    (s : ContractState) (h : s.requestToProcessId rid = 0) :
    decryptProcess rid clr sg s = .error .invalidRequest ∧
    exec (.decProcess rid clr sg) s = (s, []) ∧
    (∀ e, decryptExecutionResult rid clr sg s = .error e →
      e = .proofInvalid ∨ e = .decodeError) ∧
    exec (.decExecResult rid clr sg) s = (s, []) := by
  have h1 : decryptProcess rid clr sg s = .error .invalidRequest := by
    simp [decryptProcess, h]
  refine ⟨h1, by simp [exec, h1, orRevert], ?_, exec_decExecResult_noop rid clr sg s⟩
  intro e he
  simp only [decryptExecutionResult] at he
  split at he
  · injection he with h'
    exact .inl h'.symm
  · split at he
    · simp at he
    · injection he with h'
      exact .inr h'.symm

/-- C4 witness: decryptProcess with the unregistered request id 5 on the
initial state fails with "Invalid request". -/
theorem unknown_request_handling_witness :
    decryptProcess 5 (.str "7") true initState = .error .invalidRequest :=
  (unknown_request_handling 5 (.str "7") true initState rfl).1

/-- C7: for every processId and every resultType in {0, 1}, decoding the
composite key as (compositeId / 10, compositeId % 10) recovers exactly the
pair that was encoded as processId * 10 + resultType. -/
theorem composite_key_roundtrip (processId resultType : Nat)
    (h : resultType = 0 ∨ resultType = 1) :
    decodeComposite (encodeComposite processId resultType) = (processId, resultType) := by
  unfold encodeComposite decodeComposite
  simp only [Prod.mk.injEq]
  rcases h with rfl | rfl <;> constructor <;> omega

/-- C7 witness: the round-trip at (9999, 1). -/
theorem composite_key_roundtrip_witness :
    decodeComposite (encodeComposite 9999 1) = (9999, 1) :=
  composite_key_roundtrip 9999 1 (Or.inr rfl)

/-- C9: every decryptExecutionResult invocation that completes successfully
decoded a cleartext value, but returns the state it was given unchanged and
emits no event — the resolved value is not persisted anywhere. -/
theorem decryptExecutionResult_persists_nothing
    (rid : Nat) (clr : Cleartext) (sg : Bool) (s s' : ContractState)
    (evs : List Event) (h : decryptExecutionResult rid clr sg s = .ok (s', evs)) :
    s' = s ∧ evs = [] ∧ ∃ v, decodeString clr = some v := by
  simp only [decryptExecutionResult] at h
  split at h
  · simp at h
  · split at h
    next v heq =>
      simp only [Except.ok.injEq, Prod.mk.injEq] at h
      exact ⟨h.1.symm, h.2.symm, v, heq⟩
    next => simp at h

/-- C9 witness: a successful decryptExecutionResult call on the initial state
with a verifying proof returns the initial state and no events. -/
theorem decryptExecutionResult_persists_nothing_witness :
    initState = initState ∧ ([] : List Event) = [] ∧
      ∃ v, decodeString (.str "x") = some v :=
  decryptExecutionResult_persists_nothing 5 (.str "x") true initState initState [] rfl

/-- C10: requestProcessDecryption never fails with a not-found error for any
process id; whenever the DecryptedProcess record of the id is unrevealed — in
particular the default record of an id that was never created — the call
succeeds, registers the oracle-issued request id against that process id, and
emits DecryptionRequested (it requests decryption of whatever handles are
stored for the id, the default uninitialized handles for a nonexistent
process). -/
theorem requestProcessDecryption_no_existence_check (pid reqId : Nat)
    (s : ContractState) (h : (s.decryptedProcesses pid).isRevealed = false) :
    requestProcessDecryption pid reqId s =
      .ok ({ s with requestToProcessId := setNat s.requestToProcessId reqId pid },
           [.DecryptionRequested pid]) ∧
    ∀ (pid' reqId' : Nat) (t : ContractState),
      requestProcessDecryption pid' reqId' t ≠ .error .processNotFound := by
  constructor
  · simp [requestProcessDecryption, h]
  · intro pid' reqId' t hc
    simp only [requestProcessDecryption] at hc
    split at hc <;> simp at hc

/-- C10 witness: on the initial state, where process 42 was never created,
requestProcessDecryption succeeds and maps request id 9 to process id 42. -/
theorem requestProcessDecryption_no_existence_check_witness :
    requestProcessDecryption 42 9 initState =
      .ok ({ initState with requestToProcessId := setNat initState.requestToProcessId 9 42 },
           [.DecryptionRequested 42]) :=
  (requestProcessDecryption_no_existence_check 42 9 initState rfl).1

/-- C1 counterexample: in the reachable state `state0`, request id 7 was
registered by requestResultDecryption for (processId 1, resultType 0), so the
correlation table stores the composite id 10; invoking decryptProcess with
request id 7 and a verifying proof succeeds and mutates the DecryptedProcess
record of process 10 = 1 * 10 + 0 — exactly the misattribution the claim says
never happens. -/
theorem crossflow_decryptProcess_misattributes :
    state0.requestToProcessId 7 = encodeComposite 1 0 ∧
    (state0.decryptedProcesses 10).isRevealed = false ∧
    (exec crossOp state0).2 = [.ProcessDecrypted 10] ∧
    state1.decryptedProcesses 10 = ⟨"a", "b", "c", true⟩ ∧
    state1.decryptedProcesses 10 ≠ state0.decryptedProcesses 10 := by
  refine ⟨?_, ?_, ?_, ?_, ?_⟩ <;> decide

/-- C1 (amended): a successful decryptProcess invocation mutates exactly the
DecryptedProcess record at the raw index stored in the correlation table for
its request id, and no other storage; for a request id registered by
requestResultDecryption for (processId, resultType) that stored index is the
composite id processId * 10 + resultType, not processId, so the callback CAN
be misattributed to process processId * 10 + resultType — the contract itself
does not prevent the cross-flow invocation. -/
theorem decryptProcess_mutates_only_stored_target
    (rid : Nat) (clr : Cleartext) (sg : Bool) (s s' : ContractState)
    (evs : List Event) (h : decryptProcess rid clr sg s = .ok (s', evs)) :
    (∀ q, q ≠ s.requestToProcessId rid →
      s'.decryptedProcesses q = s.decryptedProcesses q) ∧
    (s'.decryptedProcesses (s.requestToProcessId rid)).isRevealed = true ∧
    s'.processCount = s.processCount ∧
    s'.encryptedProcesses = s.encryptedProcesses ∧
    s'.processResults = s.processResults ∧
    s'.requestToProcessId = s.requestToProcessId := by
  obtain ⟨hpid, hrev, hsg, r0, r1, r2, rest, hdec, hs, hevs⟩ := decryptProcess_ok_inv h
  subst hs
  refine ⟨fun q hq => setNat_other _ _ _ _ hq, ?_, rfl, rfl, rfl, rfl⟩
  show (setNat s.decryptedProcesses (s.requestToProcessId rid) ⟨r0, r1, r2, true⟩
    (s.requestToProcessId rid)).isRevealed = true
  rw [setNat_same]

/-- C1 witness: the successful cross-flow call on `state0` leaves the record
of process 1 (a process other than the stored target 10) unchanged and
reveals the record at the stored index. -/
theorem decryptProcess_mutates_only_stored_target_witness :
    state1.decryptedProcesses 1 = state0.decryptedProcesses 1 ∧
    (state1.decryptedProcesses (state0.requestToProcessId 7)).isRevealed = true := by
  have h := decryptProcess_mutates_only_stored_target 7 (.strs ["a", "b", "c"]) true
    state0 state1 [.ProcessDecrypted 10] (by rfl)
  exact ⟨h.1 1 (by decide), h.2.1⟩

/-- C6 counterexample: in the reachable state `state1` the record
decryptedProcesses[10] has isRevealed = true (set by the cross-flow callback
of request id 7, registered for composite id 10), yet after nine further
createEncryptedProcess calls the ninth allocates id 10 and re-initializes
that record: isRevealed is reset to false and the plaintext fields are
erased — isRevealed is not monotone and the plaintext fields of a revealed
record are not immutable. -/
theorem revealed_flag_is_reset_by_create :
    (state1.decryptedProcesses 10).isRevealed = true ∧
    (state2.decryptedProcesses 10).isRevealed = false ∧
    state2.decryptedProcesses 10 ≠ state1.decryptedProcesses 10 := by
  refine ⟨?_, ?_, ?_⟩ <;> decide

/-- C6 (amended): for every id already allocated (id ≤ processCount), once its
DecryptedProcess record has isRevealed = true, no operation of the contract
changes that record (so isRevealed stays true and code, memory, state are
immutable), and processCount never decreases; the original claim fails only
for indices beyond processCount, which the cross-flow misattribution of C1
can reveal and a later createEncryptedProcess then re-initializes. -/
theorem revealed_created_record_immutable (op : Op) (s : ContractState)
    (id : Nat) (hle : id ≤ s.processCount)
    (hrev : (s.decryptedProcesses id).isRevealed = true) :
    (exec op s).1.decryptedProcesses id = s.decryptedProcesses id ∧
    s.processCount ≤ (exec op s).1.processCount := by
  cases op with
  | create c m st ts =>
      constructor
      · show setNat s.decryptedProcesses (s.processCount + 1) ⟨"", "", "", false⟩ id
          = s.decryptedProcesses id
        exact setNat_other _ _ _ _ (by omega)
      · show s.processCount ≤ s.processCount + 1
        omega
  | requestProcDecryption pid rid =>
      simp only [exec, requestProcessDecryption]
      split
      · exact ⟨rfl, Nat.le_refl _⟩
      · exact ⟨rfl, Nat.le_refl _⟩
  | decProcess rid clr sg =>
      cases hres : decryptProcess rid clr sg s with
      | error e =>
          simp only [exec, hres]
          exact ⟨rfl, Nat.le_refl _⟩
      | ok p =>
          obtain ⟨p1, p2⟩ := p
          obtain ⟨hpid, hrev0, hsg, r0, r1, r2, rest, hdec, hs, hevs⟩ :=
            decryptProcess_ok_inv hres
          subst hs
          simp only [exec, hres, orRevert]
          have hne : id ≠ s.requestToProcessId rid := by
            intro hEq
            rw [hEq] at hrev
            simp [hrev] at hrev0
          exact ⟨setNat_other _ _ _ _ hne, Nat.le_refl _⟩
  | requestProcExecution pid =>
      simp only [exec, requestProcessExecution]
      split
      · exact ⟨rfl, Nat.le_refl _⟩
      · exact ⟨rfl, Nat.le_refl _⟩
  | submitResult pid out time =>
      exact ⟨rfl, Nat.le_refl _⟩
  | requestResDecryption pid rt rid =>
      simp only [exec, requestResultDecryption]
      split
      · exact ⟨rfl, Nat.le_refl _⟩
      · split
        · exact ⟨rfl, Nat.le_refl _⟩
        · split
          · exact ⟨rfl, Nat.le_refl _⟩
          · exact ⟨rfl, Nat.le_refl _⟩
  | decExecResult rid clr sg =>
      rw [exec_decExecResult_noop]
      exact ⟨rfl, Nat.le_refl _⟩

/-- C6 witness: in the reachable state where process 1 (an allocated id) is
revealed, a further createEncryptedProcess call leaves its record unchanged
and does not decrease processCount. -/
theorem revealed_created_record_immutable_witness :
    (exec (.create 0 0 0 0) stateRevealed).1.decryptedProcesses 1 =
      stateRevealed.decryptedProcesses 1 ∧
    stateRevealed.processCount ≤ (exec (.create 0 0 0 0) stateRevealed).1.processCount :=
  revealed_created_record_immutable (.create 0 0 0 0) stateRevealed 1
    (by decide) (by decide)

/-- Induction workhorse for sequences of createEncryptedProcess calls from an
arbitrary start state: the counter advances by the number of calls, records at
already-allocated ids are untouched, and the k-th call stores its arguments
under id processCount + k + 1 with a fresh empty unrevealed DecryptedProcess. -/
theorem createsOf_aux (l : List CreateArgs) : ∀ s : ContractState,
    (execTrace (createsOf l) s).1.processCount = s.processCount + l.length ∧
    (∀ id, id ≤ s.processCount →
      (execTrace (createsOf l) s).1.encryptedProcesses id = s.encryptedProcesses id ∧
      (execTrace (createsOf l) s).1.decryptedProcesses id = s.decryptedProcesses id) ∧
    (∀ k (hk : k < l.length),
      (execTrace (createsOf l) s).1.encryptedProcesses (s.processCount + k + 1) =
        encRecordOf (s.processCount + k + 1) (l.get ⟨k, hk⟩) ∧
      (execTrace (createsOf l) s).1.decryptedProcesses (s.processCount + k + 1) =
        ⟨"", "", "", false⟩) := by
  induction l with
  | nil =>
      intro s
      exact ⟨by simp [createsOf, execTrace], fun id _ => ⟨rfl, rfl⟩,
        fun k hk => absurd hk (by simp)⟩
  | cons a l ih =>
      intro s
      set S1 := (exec (.create a.encryptedCode a.encryptedMemory a.encryptedState
        a.timestamp) s).1 with hS1def
      obtain ⟨ihc, ihp, ihn⟩ := ih S1
      have hC : S1.processCount = s.processCount + 1 := rfl
      have hE : S1.encryptedProcesses =
          setNat s.encryptedProcesses (s.processCount + 1)
            (encRecordOf (s.processCount + 1) a) := rfl
      have hD : S1.decryptedProcesses =
          setNat s.decryptedProcesses (s.processCount + 1) ⟨"", "", "", false⟩ := rfl
      have hfst : (execTrace (createsOf (a :: l)) s).1 = (execTrace (createsOf l) S1).1 := rfl
      refine ⟨?_, ?_, ?_⟩
      · rw [hfst, ihc, hC]
        simp only [List.length_cons]
        omega
      · intro id hid
        have hid1 : id ≤ S1.processCount := by rw [hC]; omega
        obtain ⟨he, hd⟩ := ihp id hid1
        constructor
        · rw [hfst, he, hE]
          exact setNat_other _ _ _ _ (by omega)
        · rw [hfst, hd, hD]
          exact setNat_other _ _ _ _ (by omega)
      · intro k hk
        cases k with
        | zero =>
            have hle : s.processCount + 1 ≤ S1.processCount := by rw [hC]
            obtain ⟨he, hd⟩ := ihp (s.processCount + 1) hle
            constructor
            · rw [hfst]
              simp only [Nat.add_zero, List.get_cons_zero]
              rw [he, hE]
              exact setNat_same _ _ _
            · rw [hfst]
              simp only [Nat.add_zero]
              rw [hd, hD]
              exact setNat_same _ _ _
        | succ j =>
            have hj : j < l.length := by simpa using hk
            obtain ⟨he, hd⟩ := ihn j hj
            have hpos : s.processCount + (j + 1) + 1 = S1.processCount + j + 1 := by
              rw [hC]; omega
            constructor
            · rw [hfst, hpos]
              simp only [List.get_cons_succ]
              exact he
            · rw [hfst, hpos]
              exact hd

/-- C5: for every sequence of n createEncryptedProcess calls starting from the
initial state, the k-th call (1-indexed) assigns id k — ids start at 1 and
increase by exactly 1 per creation, the final processCount is n, and each id k
still holds the k-th call's EncryptedProcess together with the empty
unrevealed DecryptedProcess it initialized (so no id was reassigned or
reused); createEncryptedProcess is a total function of the state, so no call
can fail. -/
theorem create_assigns_sequential_ids (l : List CreateArgs) :
    (execTrace (createsOf l) initState).1.processCount = l.length ∧
    ∀ k (hk : k < l.length),
      (execTrace (createsOf l) initState).1.encryptedProcesses (k + 1) =
        encRecordOf (k + 1) (l.get ⟨k, hk⟩) ∧
      (execTrace (createsOf l) initState).1.decryptedProcesses (k + 1) =
        ⟨"", "", "", false⟩ := by
  obtain ⟨hc, _, hn⟩ := createsOf_aux l initState
  constructor
  · simpa [initState] using hc
  · intro k hk
    simpa [initState] using hn k hk

/-- C5 witness: after two creations the counter is 2 and id 2 holds the second
call's record with id field 2 and an empty unrevealed DecryptedProcess. -/
theorem create_assigns_sequential_ids_witness :
    (execTrace (createsOf [⟨5, 6, 7, 100⟩, ⟨8, 9, 10, 200⟩]) initState).1.processCount = 2 ∧
    (execTrace (createsOf [⟨5, 6, 7, 100⟩, ⟨8, 9, 10, 200⟩]) initState).1.encryptedProcesses 2 =
      encRecordOf 2 ⟨8, 9, 10, 200⟩ ∧
    (execTrace (createsOf [⟨5, 6, 7, 100⟩, ⟨8, 9, 10, 200⟩]) initState).1.decryptedProcesses 2 =
      ⟨"", "", "", false⟩ :=
  ⟨(create_assigns_sequential_ids [⟨5, 6, 7, 100⟩, ⟨8, 9, 10, 200⟩]).1,
   ((create_assigns_sequential_ids [⟨5, 6, 7, 100⟩, ⟨8, 9, 10, 200⟩]).2 1 (by decide)).1,
   ((create_assigns_sequential_ids [⟨5, 6, 7, 100⟩, ⟨8, 9, 10, 200⟩]).2 1 (by decide)).2⟩

/-- C8: requestResultDecryption fails with "No results available" whenever
hasExecutionResults is false; when results exist it fails with
"Invalid result type" for a resultType other than 0 and 1 (the
no-results check runs first); otherwise it succeeds, its only effect being to
register the composite execution-result key in the correlation table (the
source emits no event here); every failure leaves the state unchanged under
revert semantics.  resultType is a uint8 in the source, whence the < 256
bound. -/
theorem requestResultDecryption_behavior (pid rt reqId : Nat) (s : ContractState)
    (hrt : rt < 256) :
    (hasExecutionResults s pid = false →
      requestResultDecryption pid rt reqId s = .error .noResultsAvailable ∧
      exec (.requestResDecryption pid rt reqId) s = (s, [])) ∧
    (hasExecutionResults s pid = true → rt ≠ 0 → rt ≠ 1 →
      requestResultDecryption pid rt reqId s = .error .invalidResultType ∧
      exec (.requestResDecryption pid rt reqId) s = (s, [])) ∧
    (hasExecutionResults s pid = true → rt = 0 ∨ rt = 1 →
      requestResultDecryption pid rt reqId s =
        .ok ({ s with requestToProcessId :=
                setNat s.requestToProcessId reqId (encodeComposite pid rt) }, [])) := by
  refine ⟨?_, ?_, ?_⟩
  · intro hno
    unfold hasExecutionResults at hno
    have h : requestResultDecryption pid rt reqId s = .error .noResultsAvailable := by
      simp [requestResultDecryption, hno]
    exact ⟨h, by simp [exec, h, orRevert]⟩
  · intro hyes h0 h1
    unfold hasExecutionResults at hyes
    have h : requestResultDecryption pid rt reqId s = .error .invalidResultType := by
      simp [requestResultDecryption, hyes, h0, h1]
    exact ⟨h, by simp [exec, h, orRevert]⟩
  · intro hyes hrt01
    unfold hasExecutionResults at hyes
    rcases hrt01 with rfl | rfl <;> simp [requestResultDecryption, hyes]

/-- C8 witness: in the reachable state where process 1 has an execution
result, requesting decryption of its output (resultType 0) under request id 9
registers the composite key 10. -/
theorem requestResultDecryption_behavior_witness :
    requestResultDecryption 1 0 9 stateHasResults =
      .ok ({ stateHasResults with
              requestToProcessId := setNat stateHasResults.requestToProcessId 9
                (encodeComposite 1 0) },
           []) :=
  (requestResultDecryption_behavior 1 0 9 stateHasResults (by omega)).2.2
    (by decide) (Or.inl rfl)

end WebOsFHE
